import Mathlib

/-!
Verification development for the `ocr-service` receipt recognition gateway.

The definitions below are a shallow embedding of the TypeScript sources:

* `src/services/gateway/src/services/processor.ts`  (`RecognitionProcessor`)
* `src/services/gateway/src/worker/processor.ts`    (`createWorker` job handler)
* `src/services/gateway/src/services/ocr.ts`        (`OcrService.uploadImage`)
* `src/services/gateway/src/gateway/routes/recognition/recognize.ts`

Image buffers are opaque values (modelled as `Nat`), byte-level image
operations (aligner, OCR engines, QR decoder, sharp) are environment
functions returning `Except String _` (an `error` models a thrown JS
exception after the clients' internal retries), and every persistent
effect (metadata write, blob write, event publish) is recorded in an
ordered trace so that ordering claims can be stated.  JS `Date.now()` is
modelled as the constant `Env.now` (time does not advance during a job;
no claim here depends on elapsed time values).
-/

/-- The `status_enum` of the schema. -/
inductive Status
  | queued
  | processing
  | completed
  | failed
deriving DecidableEq, Repr

/-- The `result_type_enum` of the schema. -/
inductive ResultType
  | text
  | qr
deriving DecidableEq, Repr

/-- The `engine_enum` of the schema. -/
inductive Engine
  | tesseract
  | paddleocr
deriving DecidableEq, Repr

/-- The `qr_format_enum` of the schema. -/
inductive QrFormat
  | fiscal
  | url
  | unknown
deriving DecidableEq, Repr

/-- Opaque image byte buffers. -/
abbrev Buffer := Nat

/-- A 2-D point of a zxing `Position` (JS floats modelled as rationals). -/
structure Point where
  x : ℚ
  y : ℚ
deriving DecidableEq, Repr

/-- The corners of a decoded QR code reported by `zxing-wasm`. -/
structure Position where
  topLeft : Point
  bottomRight : Point
deriving DecidableEq, Repr

/-- One decoded barcode: payload text plus position. -/
structure BarcodeResult where
  text : String
  position : Position
deriving DecidableEq, Repr

/-- Pixel rectangle stored in `qr_location` (after `Math.round`). -/
structure QrLocation where
  x : ℤ
  y : ℤ
  width : ℤ
  height : ℤ
deriving DecidableEq, Repr

/-- The `{text, confidence}` record returned by the Tesseract / PaddleOCR clients. -/
structure OcrEngineResult where
  text : String
  confidence : ℚ
deriving DecidableEq, Repr

/-- The `{warped, preprocessed}` record returned by `AlignerClient.align`. -/
structure AlignmentResult where
  warped : Buffer
  preprocessed : Buffer
deriving DecidableEq, Repr

/-- The `Image` row fields the processor reads. -/
structure ImageRow where
  originalUrl : String
  processedUrl : Option String := none
deriving DecidableEq, Repr

/-- The `recognition_results` row (fields touched by this code). -/
structure RecognitionRow where
  status : Status := Status.queued
  resultType : Option ResultType := none
  rawText : Option String := none
  confidence : Option ℚ := none
  engine : Option Engine := none
  aligned : Option Bool := none
  qrData : Option String := none
  qrFormat : Option QrFormat := none
  qrLocation : Option QrLocation := none
  processingTime : Option ℕ := none
  error : Option String := none
  completedAt : Option ℕ := none
deriving DecidableEq, Repr

/-- A partial update passed to `recognitionsRepo.update` (drizzle `.set`
only touches the supplied fields). -/
structure RecPatch where
  status : Option Status := none
  resultType : Option ResultType := none
  rawText : Option String := none
  confidence : Option ℚ := none
  engine : Option Engine := none
  aligned : Option Bool := none
  qrData : Option String := none
  qrFormat : Option QrFormat := none
  qrLocation : Option QrLocation := none
  processingTime : Option ℕ := none
  error : Option String := none
  completedAt : Option ℕ := none
deriving DecidableEq, Repr

/-- Apply a partial update to a row: supplied fields overwrite, absent
fields are untouched (drizzle `update ... set(dto)` semantics). -/
def applyPatch (r : RecognitionRow) (p : RecPatch) : RecognitionRow where
  status := p.status.getD r.status
  resultType := p.resultType.orElse fun _ => r.resultType
  rawText := p.rawText.orElse fun _ => r.rawText
  confidence := p.confidence.orElse fun _ => r.confidence
  engine := p.engine.orElse fun _ => r.engine
  aligned := p.aligned.orElse fun _ => r.aligned
  qrData := p.qrData.orElse fun _ => r.qrData
  qrFormat := p.qrFormat.orElse fun _ => r.qrFormat
  qrLocation := p.qrLocation.orElse fun _ => r.qrLocation
  processingTime := p.processingTime.orElse fun _ => r.processingTime
  error := p.error.orElse fun _ => r.error
  completedAt := p.completedAt.orElse fun _ => r.completedAt

/-- Blob-store keys written by the worker: the `<nanoid>-aligned.jpg`
object holding the aligner's warped output, or one of the
`debug/<recognitionId>/...` debug artifacts. -/
inductive BlobKey
  | aligned
  | debug (tag : String)
deriving DecidableEq, Repr

/-- Events published on the `ocr:events` channel (payload fields the
claims mention). -/
inductive BusEvent
  | processing (imageId recognitionId : String)
  | completed (imageId recognitionId : String) (resultType : ResultType)
      (rawText : Option String) (qrData : Option String) (processingTime : ℕ)
  | failed (imageId recognitionId : String) (error : String)
  | debugStep (recognitionId : String) (step : String)
deriving DecidableEq, Repr

/-- One persistent effect of the worker, in program order. -/
inductive Op
  | writeRec (patch : RecPatch)
  | writeImage (processedUrl : String)
  | putObject (key : BlobKey) (buf : Buffer)
  | publish (ev : BusEvent)
deriving DecidableEq, Repr

/-- Worker-side state: the Recognition row of the job plus the ordered
trace of persistent effects. -/
structure ProcState where
  row : RecognitionRow
  trace : List Op
deriving DecidableEq, Repr

/-- The `ProcessorConfig` of `processor.ts`. -/
structure ProcessorConfig where
  confidenceThresholdHigh : ℚ
  confidenceThresholdLow : ℚ
  debugMode : Bool
deriving DecidableEq, Repr

/-- The `ProcessorResult` of `processor.ts` (one OCR attempt's outcome). -/
structure ProcessorResult where
  raw : String
  confidence : ℚ
  engine : Engine
  aligned : Bool
  usedPreprocessed : Bool
deriving DecidableEq, Repr

/-- The value returned by `tryExtractQrFromBothVersions`. -/
structure QrHit where
  data : String
  format : QrFormat
  location : QrLocation
  foundInPreprocessed : Bool
deriving DecidableEq, Repr

/-- The `RecognitionResult` of `processor.ts` (value returned by `process`). -/
structure RecognitionResult where
  resultType : ResultType
  text : Option ProcessorResult := none
  qr : Option QrHit := none
  processingTime : ℕ
deriving DecidableEq, Repr

/-- The queue envelope `RecognitionJob` of `platform/queue/index.ts`. -/
structure RecognitionJob where
  imageId : String
  recognitionId : String
  sourceService : Option String := none
  sourceReference : Option String := none
  acceptedQrFormats : Option (List QrFormat) := none
deriving DecidableEq, Repr

/-- The worker's environment: every external collaborator the processor
calls.  An `Except.error` models a thrown JS exception (after the HTTP
clients' internal retries). -/
structure Env where
  now : ℕ
  findImage : String → Option ImageRow
  cacheGet : String → Option Buffer
  getObject : String → Except String Buffer
  putObject : BlobKey → Buffer → Except String String
  updateImage : String → Except String Unit
  align : Buffer → Except String AlignmentResult
  sharpPipeline : Buffer → Except String Buffer
  readBarcodes : Buffer → Except String (List BarcodeResult)
  tesseract : Buffer → Except String OcrEngineResult
  paddleocr : Buffer → Except String OcrEngineResult

/-! ### The effect monad

`M α` is state-passing over `ProcState` with JS exceptions: effects
performed before a throw persist, exactly as awaited calls do in the
source. -/

/-- The worker's effect monad. -/
def M (α : Type) : Type := ProcState → Except String α × ProcState

/-- Monadic bind for `M`. -/
def M.bind {α β : Type} (x : M α) (f : α → M β) : M β := fun s =>
  match x s with
  | (Except.ok a, s₁) => f a s₁
  | (Except.error e, s₁) => (Except.error e, s₁)

instance : Monad M where
  pure a := fun s => (Except.ok a, s)
  bind := M.bind

/-- Throw a JS exception. -/
def M.throw {α : Type} (e : String) : M α := fun s => (Except.error e, s)

/-- JS `try ... catch`: effects of the failed body persist. -/
def M.tryCatch {α : Type} (x : M α) (h : String → M α) : M α := fun s =>
  match x s with
  | (Except.error e, s₁) => h e s₁
  | (Except.ok a, s₁) => (Except.ok a, s₁)

instance : MonadExceptOf String M where
  throw := M.throw
  tryCatch := M.tryCatch

/-- Lift a fallible environment call that performs no persistent effect. -/
def liftE {α : Type} (x : Except String α) : M α := fun s =>
  match x with
  | Except.ok a => (Except.ok a, s)
  | Except.error e => (Except.error e, s)

/-- Model of `recognitionsRepo.update(recognitionId, patch)`: commits the patch to
the metadata store and records the write in the trace. -/
def updateRecognition (patch : RecPatch) : M Unit := fun s =>
  (Except.ok (), ⟨applyPatch s.row patch, s.trace ++ [Op.writeRec patch]⟩)

/-- Model of `eventBus.publish('ocr:events', ...)`. -/
def publishEvent (ev : BusEvent) : M Unit := fun s =>
  (Except.ok (), ⟨s.row, s.trace ++ [Op.publish ev]⟩)

/-- Model of `storage.putObject(key, buf, contentType)`: on success the blob is
stored (recorded in the trace) and the `minio://` url is returned. -/
def putObjectM (env : Env) (key : BlobKey) (buf : Buffer) : M String := fun s =>
  match env.putObject key buf with
  | Except.ok minioUrl =>
      (Except.ok minioUrl, ⟨s.row, s.trace ++ [Op.putObject key buf]⟩)
  | Except.error e => (Except.error e, s)

/-- Model of `imagesRepo.update` setting the processed url. -/
def updateImageM (env : Env) (processedUrl : String) : M Unit := fun s =>
  match env.updateImage processedUrl with
  | Except.ok _ =>
      (Except.ok (), ⟨s.row, s.trace ++ [Op.writeImage processedUrl]⟩)
  | Except.error e => (Except.error e, s)

/-! ### `RecognitionProcessor` (services/processor.ts) -/

/-- JS `String.prototype.replace` with a string pattern: replace the first
occurrence only. -/
def replaceFirstList (pat repl : List Char) : List Char → List Char
  | [] => []
  | c :: rest =>
    if pat.isPrefixOf (c :: rest) then repl ++ (c :: rest).drop pat.length
    else c :: replaceFirstList pat repl rest

/-- JS `String.prototype.split` with a one-character separator. -/
def splitOnCharAux (sep : Char) : List Char → List Char → List (List Char)
  | [], acc => [acc.reverse]
  | c :: rest, acc =>
    if c = sep then acc.reverse :: splitOnCharAux sep rest []
    else splitOnCharAux sep rest (c :: acc)

/-- JS `url.replace('minio://', '').split('/').slice(1).join('/')` used by
`getImageBuffer` and `getImageUrl` to recover the blob key. -/
def urlToKey (minioUrl : String) : String :=
  String.intercalate "/"
    (((splitOnCharAux '/' (replaceFirstList "minio://".toList [] minioUrl.toList) []).drop 1).map
      fun cs => String.mk cs)

/-- JS `String.prototype.includes`: substring containment. -/
def containsSubstr (s pat : String) : Bool :=
  decide (pat.toList <:+: s.toList)

/-- JS `String.prototype.startsWith`. -/
def startsWithStr (s pat : String) : Bool :=
  pat.toList.isPrefixOf s.toList

/-- Embeds `RecognitionProcessor.classifyQrFormat` (processor.ts lines 341-355). -/
def classifyQrFormat (data : String) : QrFormat :=
  if containsSubstr data "fn=" || containsSubstr data "&fn=" ||
      (containsSubstr data "t=" && containsSubstr data "s=" && containsSubstr data "fp=") then
    QrFormat.fiscal
  else if startsWithStr data "http://" || startsWithStr data "https://" then
    QrFormat.url
  else
    QrFormat.unknown

/-- Embeds `RecognitionProcessor.convertPosition` (processor.ts lines 357-364);
`Math.round` is `round` on rationals. -/
def convertPosition (p : Position) : QrLocation where
  x := round p.topLeft.x
  y := round p.topLeft.y
  width := round (p.bottomRight.x - p.topLeft.x)
  height := round (p.bottomRight.y - p.topLeft.y)

/-- The `for (const { name, buffer, isPreprocessed } of buffers)` loop of
`tryExtractQrFromBothVersions`: a buffer whose decode throws or yields no
codes is passed over; otherwise the first fiscal code, else the first
code, is returned. -/
def tryExtractQrGo (env : Env) : List (Buffer × Bool) → Option QrHit
  | [] => none
  | (buffer, isPreprocessed) :: rest =>
    match env.readBarcodes buffer with
    | Except.error _ => tryExtractQrGo env rest
    | Except.ok [] => tryExtractQrGo env rest
    | Except.ok (r₀ :: rs) =>
      match (r₀ :: rs).find? (fun r => classifyQrFormat r.text == QrFormat.fiscal) with
      | some r =>
          some ⟨r.text, QrFormat.fiscal, convertPosition r.position, isPreprocessed⟩
      | none =>
          some ⟨r₀.text, classifyQrFormat r₀.text, convertPosition r₀.position, isPreprocessed⟩

/-- Embeds `RecognitionProcessor.tryExtractQrFromBothVersions` (processor.ts
lines 278-339): scans `warped` then `preprocessed`. -/
def tryExtractQrFromBothVersions (env : Env) (warpedBuffer preprocessedBuffer : Buffer) :
    Option QrHit :=
  tryExtractQrGo env
    [(warpedBuffer, false), (preprocessedBuffer, true)]

/-- Embeds `RecognitionProcessor.applyLocalPreprocessing` (processor.ts lines
493-508): the sharp grayscale → normalize → threshold(128) → jpeg
pipeline; on an internal error the original buffer is returned. -/
def applyLocalPreprocessing (env : Env) (buffer : Buffer) : Buffer :=
  match env.sharpPipeline buffer with
  | Except.ok preprocessed => preprocessed
  | Except.error _ => buffer

/-- Dispatch of `attempt.engine.recognize(attempt.buffer)`. -/
def runEngine (env : Env) (e : Engine) (b : Buffer) : Except String OcrEngineResult :=
  match e with
  | Engine.tesseract => env.tesseract b
  | Engine.paddleocr => env.paddleocr b

/-- One entry of the `attempts` array in `recognizeTextWithStrategy`. -/
structure OcrAttempt where
  name : String
  buffer : Buffer
  engine : Engine
  usedPreprocessed : Bool
deriving DecidableEq, Repr

/-- The `attempts` array of `recognizeTextWithStrategy` (processor.ts
lines 371-390), in source order. -/
def attemptsOf (warpedBuffer preprocessedBuffer : Buffer) : List OcrAttempt :=
  [ ⟨"tesseract+preprocessed", preprocessedBuffer, Engine.tesseract, true⟩,
    ⟨"paddleocr+preprocessed", preprocessedBuffer, Engine.paddleocr, true⟩,
    ⟨"paddleocr+warped", warpedBuffer, Engine.paddleocr, false⟩ ]

/-- The attempt loop of `recognizeTextWithStrategy` with its mutable
`lastResult` threaded as an accumulator.  The source's per-attempt
`try/catch` has exactly two throw sites: `engine.recognize` (a throw
skips to the next attempt) and the debug-mode effects of the success
branch (a throw there is also caught and the loop continues with the
already-updated `lastResult`); the final `if (lastResult)` block follows
the loop. -/
def recognizeChainGo (env : Env) (cfg : ProcessorConfig) (recognitionId : String)
    (warpedBuffer preprocessedBuffer : Buffer) :
    List OcrAttempt → Option ProcessorResult → M ProcessorResult
  | [], none => M.throw "all ocr engines failed"
  | [], some lastResult => do
      if cfg.debugMode then
        let fallbackBuffer :=
          if lastResult.usedPreprocessed then preprocessedBuffer else warpedBuffer
        let _ ← putObjectM env (BlobKey.debug "61_ocr_fallback") fallbackBuffer
        publishEvent (BusEvent.debugStep recognitionId "ocr_fallback")
      else
        pure ()
      pure lastResult
  | attempt :: rest, acc =>
    match runEngine env attempt.engine attempt.buffer with
    | Except.error _ =>
        recognizeChainGo env cfg recognitionId warpedBuffer preprocessedBuffer rest acc
    | Except.ok result =>
      let lastResult : ProcessorResult :=
        ⟨result.text, result.confidence, attempt.engine, true, attempt.usedPreprocessed⟩
      if cfg.confidenceThresholdLow ≤ result.confidence then
        M.tryCatch
          (do
            if cfg.debugMode then
              let _ ← putObjectM env (BlobKey.debug "60_ocr_winner") attempt.buffer
              publishEvent (BusEvent.debugStep recognitionId "ocr_winner")
            else
              pure ()
            pure lastResult)
          (fun _ =>
            recognizeChainGo env cfg recognitionId warpedBuffer preprocessedBuffer rest
              (some lastResult))
      else
        recognizeChainGo env cfg recognitionId warpedBuffer preprocessedBuffer rest
          (some lastResult)

/-- Embeds `RecognitionProcessor.recognizeTextWithStrategy` (processor.ts lines
366-477). -/
def recognizeTextWithStrategy (env : Env) (cfg : ProcessorConfig)
    (warpedBuffer preprocessedBuffer : Buffer) (recognitionId : String) : M ProcessorResult :=
  recognizeChainGo env cfg recognitionId warpedBuffer preprocessedBuffer
    (attemptsOf warpedBuffer preprocessedBuffer) none

/-- Embeds `RecognitionProcessor.getImageBuffer` (processor.ts lines 262-276):
metadata lookup, then the `ocr:image:<imageId>` cache key, then the blob
store via the key recovered from `originalUrl`. -/
def getImageBuffer (env : Env) (imageId : String) : M Buffer := do
  match env.findImage imageId with
  | none => M.throw "image not found"
  | some image =>
    match env.cacheGet ("ocr:image:" ++ imageId) with
    | some cached => pure cached
    | none => liftE (env.getObject (urlToKey image.originalUrl))

/-- The alignment `try/catch` of `process` (processor.ts lines 92-174):
on success the warped output is persisted under a `<nanoid>-aligned.jpg`
key and `Image.processedUrl` is updated; on any throw in that block the
original bytes become `warped` and a locally preprocessed buffer becomes
`preprocessed`. -/
def alignmentPhase (env : Env) (cfg : ProcessorConfig) (imageBuffer : Buffer)
    (recognitionId : String) : M AlignmentResult :=
  M.tryCatch
    (do
      let alignmentResult ← liftE (env.align imageBuffer)
      let processedUrl ← putObjectM env BlobKey.aligned alignmentResult.warped
      updateImageM env processedUrl
      if cfg.debugMode then
        let _ ← putObjectM env (BlobKey.debug "50_aligned_warped") alignmentResult.warped
        publishEvent (BusEvent.debugStep recognitionId "aligned_warped")
        let _ ← putObjectM env (BlobKey.debug "51_aligned_preprocessed")
          alignmentResult.preprocessed
        publishEvent (BusEvent.debugStep recognitionId "aligned_preprocessed")
      else
        pure ()
      pure alignmentResult)
    (fun _ => do
      let localPreprocessed := applyLocalPreprocessing env imageBuffer
      if cfg.debugMode then
        let _ ← putObjectM env (BlobKey.debug "50_fallback_original") imageBuffer
        publishEvent (BusEvent.debugStep recognitionId "fallback_original")
        let _ ← putObjectM env (BlobKey.debug "51_fallback_preprocessed") localPreprocessed
        publishEvent (BusEvent.debugStep recognitionId "fallback_preprocessed")
      else
        pure ()
      pure ⟨imageBuffer, localPreprocessed⟩)

/-- JS `!acceptedQrFormats || acceptedQrFormats.includes(qrResult.format)`
(processor.ts line 183). -/
def shouldAcceptQr (acceptedQrFormats : Option (List QrFormat)) (format : QrFormat) : Bool :=
  match acceptedQrFormats with
  | none => true
  | some formats => formats.contains format

/-- The text tail of `process` (processor.ts lines 219-250), reached when
no QR code was found or the found QR was not accepted. -/
def processTextPath (env : Env) (cfg : ProcessorConfig) (recognitionId : String)
    (warpedBuffer preprocessedBuffer : Buffer) (startTime : ℕ) : M RecognitionResult := do
  let textResult ← recognizeTextWithStrategy env cfg warpedBuffer preprocessedBuffer
    recognitionId
  let processingTime := env.now - startTime
  updateRecognition
    { status := some Status.completed, resultType := some ResultType.text,
      rawText := some textResult.raw, confidence := some textResult.confidence,
      engine := some textResult.engine, aligned := some textResult.aligned,
      processingTime := some processingTime, completedAt := some env.now }
  pure { resultType := ResultType.text, text := some textResult, qr := none,
         processingTime := processingTime }

/-- Embeds `RecognitionProcessor.process` (processor.ts lines 57-260).  The JS
`return` inside the accepted-QR branch is rendered by calling
`processTextPath` in each of the two fall-through positions. -/
def process (env : Env) (cfg : ProcessorConfig) (imageId recognitionId : String)
    (acceptedQrFormats : Option (List QrFormat)) : M RecognitionResult :=
  let startTime := env.now
  M.tryCatch
    (do
      updateRecognition { status := some Status.processing }
      let imageBuffer ← getImageBuffer env imageId
      if cfg.debugMode then
        let _ ← putObjectM env (BlobKey.debug "00_original") imageBuffer
        publishEvent (BusEvent.debugStep recognitionId "original")
      else
        pure ()
      let alignmentResult ← alignmentPhase env cfg imageBuffer recognitionId
      let qrResult := tryExtractQrFromBothVersions env alignmentResult.warped
        alignmentResult.preprocessed
      match qrResult with
      | some qrHit =>
        if shouldAcceptQr acceptedQrFormats qrHit.format then do
          let processingTime := env.now - startTime
          updateRecognition
            { status := some Status.completed, resultType := some ResultType.qr,
              qrData := some qrHit.data, qrFormat := some qrHit.format,
              qrLocation := some qrHit.location, processingTime := some processingTime,
              completedAt := some env.now }
          pure { resultType := ResultType.qr, text := none, qr := some qrHit,
                 processingTime := processingTime }
        else
          processTextPath env cfg recognitionId alignmentResult.warped
            alignmentResult.preprocessed startTime
      | none =>
          processTextPath env cfg recognitionId alignmentResult.warped
            alignmentResult.preprocessed startTime)
    (fun e => do
      updateRecognition
        { status := some Status.failed, error := some e, completedAt := some env.now }
      M.throw e)

/-- The job handler of `createWorker` (worker/processor.ts lines 15-85):
publishes `ocr.processing` first, then runs the processor, then publishes
`ocr.completed` or `ocr.failed` and rethrows on failure.  The source
calls `services.processor.process(job.data.imageId, job.data.recognitionId)`
with no further arguments, so the envelope's `acceptedQrFormats` is not
forwarded and `process` receives `undefined` (`none`) for it. -/
def workerStep (env : Env) (cfg : ProcessorConfig) (job : RecognitionJob) :
    M RecognitionResult := do
  let startTime := env.now
  publishEvent (BusEvent.processing job.imageId job.recognitionId)
  M.tryCatch
    (do
      let result ← process env cfg job.imageId job.recognitionId none
      let processingTime := env.now - startTime
      publishEvent
        (BusEvent.completed job.imageId job.recognitionId result.resultType
          (result.text.map fun t => t.raw) (result.qr.map fun q => q.data) processingTime)
      pure result)
    (fun e => do
      publishEvent (BusEvent.failed job.imageId job.recognitionId e)
      M.throw e)

/-! ### `OcrService.uploadImage` (services/ocr.ts) and the
`POST /api/v1/recognize` route (gateway/routes/recognition/recognize.ts)

The ingest stores are modelled as association lists (newest binding
first, JS last-write-wins).  The ids generated during one upload (the
`nanoid` blob key, the database-generated Image and Recognition ids) are
supplied by `IngestEnv`. -/

/-- The parts of a JS `File` the ingest reads. -/
structure FileInput where
  size : ℕ
  mimeType : String
  bytes : Buffer
deriving DecidableEq, Repr

/-- The optional `metadata` argument of `uploadImage`. -/
structure UploadMeta where
  sourceService : Option String := none
  sourceReference : Option String := none
  acceptedQrFormats : Option (List QrFormat) := none
deriving DecidableEq, Repr

/-- Identifiers generated during one upload. -/
structure IngestEnv where
  bucket : String
  imageKey : String
  newImageId : String
  newRecognitionId : String
deriving DecidableEq, Repr

/-- Gateway-side persistent state: blob store, cache, the two metadata
tables, the queue, and the events published on the bus. -/
structure IngestState where
  storage : List (String × Buffer) := []
  cache : List (String × Buffer) := []
  images : List (String × ImageRow) := []
  recognitions : List (String × Status) := []
  queue : List RecognitionJob := []
  events : List BusEvent := []
deriving DecidableEq, Repr

/-- The `{imageId, recognitionId, status: 'queued'}` record returned by `uploadImage`. -/
structure UploadImageResult where
  imageId : String
  recognitionId : String
deriving DecidableEq, Repr

/-- Embeds `OcrService.uploadImage` (ocr.ts lines 27-98).  Validation happens
before every effect; on success the blob write, the cache seed under
`ocr:image:<imageKey>`, the two inserts and the enqueue happen in source
order.  Note that the cache key is built from the generated blob key
`imageKey`, not from the Image row id. -/
def uploadImage (env : IngestEnv) (file : FileInput) (metadata : Option UploadMeta)
    (s : IngestState) : Except String (IngestState × UploadImageResult) :=
  if ¬ (["image/jpeg", "image/png", "image/webp"].contains file.mimeType) then
    Except.error "unsupported image format"
  else if 10 * 1024 * 1024 < file.size then
    Except.error "file too large"
  else
    let minioUrl := "minio://" ++ env.bucket ++ "/" ++ env.imageKey
    let cacheKey := "ocr:image:" ++ env.imageKey
    let s₁ := { s with storage := (env.imageKey, file.bytes) :: s.storage }
    let s₂ := { s₁ with cache := (cacheKey, file.bytes) :: s₁.cache }
    let s₃ := { s₂ with images :=
      (env.newImageId, ⟨minioUrl, none⟩) :: s₂.images }
    let s₄ := { s₃ with recognitions :=
      (env.newRecognitionId, Status.queued) :: s₃.recognitions }
    let s₅ := { s₄ with queue := s₄.queue ++
      [ { imageId := env.newImageId, recognitionId := env.newRecognitionId,
          sourceService := (metadata.bind fun m => m.sourceService),
          sourceReference := (metadata.bind fun m => m.sourceReference),
          acceptedQrFormats := (metadata.bind fun m => m.acceptedQrFormats) } ] }
    Except.ok (s₅, ⟨env.newImageId, env.newRecognitionId⟩)

/-- An HTTP response of the recognize route. -/
structure RouteResult where
  status : ℕ
  errorMessage : Option String := none
  result : Option UploadImageResult := none
deriving DecidableEq, Repr

/-- The `POST /recognize` handler of `createRecognizeRoute`
(recognize.ts lines 4-37): 400 only for a missing file; any error thrown
by `uploadImage` is caught and answered with status 500. -/
def recognizeRoute (env : IngestEnv) (image : Option FileInput)
    (sourceService sourceReference : Option String) (s : IngestState) :
    IngestState × RouteResult :=
  match image with
  | none => (s, { status := 400, errorMessage := some "image is required" })
  | some file =>
    match uploadImage env file
        (some { sourceService := sourceService, sourceReference := sourceReference }) s with
    | Except.ok (s', r) => (s', { status := 202, result := some r })
    | Except.error e => (s, { status := 500, errorMessage := some e })

/-! ### Pure characterizations (debugMode = false)

With `debugMode = false` every run of the processor is a pure function
of the environment; the following definitions compute the result, the
effect trace and the final Recognition row of such a run.  They are
proved equal to the monadic embedding below and are only used in
proofs. -/

/-- Pure value of `getImageBuffer` (the function performs no persistent
effect). -/
def getImageBufferPure (env : Env) (imageId : String) : Except String Buffer :=
  match env.findImage imageId with
  | none => Except.error "image not found"
  | some image =>
    match env.cacheGet ("ocr:image:" ++ imageId) with
    | some cached => Except.ok cached
    | none => env.getObject (urlToKey image.originalUrl)

/-- The buffers `alignmentPhase` resolves to (debug mode off): the
aligner's pair when the align call and both persistence steps succeed,
otherwise the original buffer paired with the local preprocessing. -/
def alignmentPhaseValue (env : Env) (imageBuffer : Buffer) : AlignmentResult :=
  match env.align imageBuffer with
  | Except.error _ => ⟨imageBuffer, applyLocalPreprocessing env imageBuffer⟩
  | Except.ok alignmentResult =>
    match env.putObject BlobKey.aligned alignmentResult.warped with
    | Except.error _ => ⟨imageBuffer, applyLocalPreprocessing env imageBuffer⟩
    | Except.ok processedUrl =>
      match env.updateImage processedUrl with
      | Except.error _ => ⟨imageBuffer, applyLocalPreprocessing env imageBuffer⟩
      | Except.ok _ => alignmentResult

/-- The persistent effects of `alignmentPhase` (debug mode off): effects
committed before a throw survive the fallback. -/
def alignmentPhaseOps (env : Env) (imageBuffer : Buffer) : List Op :=
  match env.align imageBuffer with
  | Except.error _ => []
  | Except.ok alignmentResult =>
    match env.putObject BlobKey.aligned alignmentResult.warped with
    | Except.error _ => []
    | Except.ok processedUrl =>
      match env.updateImage processedUrl with
      | Except.error _ => [Op.putObject BlobKey.aligned alignmentResult.warped]
      | Except.ok _ =>
          [Op.putObject BlobKey.aligned alignmentResult.warped,
           Op.writeImage processedUrl]

/-- Pure value of the OCR attempt loop (debug mode off). -/
def chainPure (env : Env) (tlow : ℚ) :
    List OcrAttempt → Option ProcessorResult → Except String ProcessorResult
  | [], none => Except.error "all ocr engines failed"
  | [], some lastResult => Except.ok lastResult
  | attempt :: rest, acc =>
    match runEngine env attempt.engine attempt.buffer with
    | Except.error _ => chainPure env tlow rest acc
    | Except.ok result =>
      let lastResult : ProcessorResult :=
        ⟨result.text, result.confidence, attempt.engine, true, attempt.usedPreprocessed⟩
      if tlow ≤ result.confidence then Except.ok lastResult
      else chainPure env tlow rest (some lastResult)

/-- The patch written on entering `processing`. -/
def patchProcessing : RecPatch := { status := some Status.processing }

/-- The patch written by the job-level catch. -/
def patchFailed (e : String) (now : ℕ) : RecPatch :=
  { status := some Status.failed, error := some e, completedAt := some now }

/-- The patch written when a QR result is accepted. -/
def patchCompletedQr (hit : QrHit) (processingTime now : ℕ) : RecPatch :=
  { status := some Status.completed, resultType := some ResultType.qr,
    qrData := some hit.data, qrFormat := some hit.format,
    qrLocation := some hit.location, processingTime := some processingTime,
    completedAt := some now }

/-- The patch written when the OCR chain completes. -/
def patchCompletedText (t : ProcessorResult) (processingTime now : ℕ) : RecPatch :=
  { status := some Status.completed, resultType := some ResultType.text,
    rawText := some t.raw, confidence := some t.confidence, engine := some t.engine,
    aligned := some t.aligned, processingTime := some processingTime,
    completedAt := some now }

/-- Pure value of `process` from the point where the two buffers are
fixed (QR step and OCR chain), debug mode off. -/
def processAfterAlignPure (env : Env) (cfg : ProcessorConfig)
    (acceptedQrFormats : Option (List QrFormat)) (warpedBuffer preprocessedBuffer : Buffer) :
    Except String RecognitionResult :=
  let textOutcome :=
    match chainPure env cfg.confidenceThresholdLow
        (attemptsOf warpedBuffer preprocessedBuffer) none with
    | Except.error e => Except.error e
    | Except.ok t =>
        Except.ok { resultType := ResultType.text, text := some t, qr := none,
                    processingTime := env.now - env.now }
  match tryExtractQrFromBothVersions env warpedBuffer preprocessedBuffer with
  | some qrHit =>
    if shouldAcceptQr acceptedQrFormats qrHit.format then
      Except.ok { resultType := ResultType.qr, text := none, qr := some qrHit,
                  processingTime := env.now - env.now }
    else textOutcome
  | none => textOutcome

/-- The trace suffix of `process` after the two buffers are fixed. -/
def processAfterAlignOps (env : Env) (cfg : ProcessorConfig)
    (acceptedQrFormats : Option (List QrFormat)) (warpedBuffer preprocessedBuffer : Buffer) :
    List Op :=
  let textOps :=
    match chainPure env cfg.confidenceThresholdLow
        (attemptsOf warpedBuffer preprocessedBuffer) none with
    | Except.error e => [Op.writeRec (patchFailed e env.now)]
    | Except.ok t => [Op.writeRec (patchCompletedText t (env.now - env.now) env.now)]
  match tryExtractQrFromBothVersions env warpedBuffer preprocessedBuffer with
  | some qrHit =>
    if shouldAcceptQr acceptedQrFormats qrHit.format then
      [Op.writeRec (patchCompletedQr qrHit (env.now - env.now) env.now)]
    else textOps
  | none => textOps

/-- Pure value of a whole `process` run (debug mode off). -/
def processPure (env : Env) (cfg : ProcessorConfig) (imageId : String)
    (acceptedQrFormats : Option (List QrFormat)) : Except String RecognitionResult :=
  match getImageBufferPure env imageId with
  | Except.error e => Except.error e
  | Except.ok imageBuffer =>
    let av := alignmentPhaseValue env imageBuffer
    processAfterAlignPure env cfg acceptedQrFormats av.warped av.preprocessed

/-- The full effect trace of a `process` run (debug mode off). -/
def processOps (env : Env) (cfg : ProcessorConfig) (imageId : String)
    (acceptedQrFormats : Option (List QrFormat)) : List Op :=
  Op.writeRec patchProcessing ::
  (match getImageBufferPure env imageId with
   | Except.error e => [Op.writeRec (patchFailed e env.now)]
   | Except.ok imageBuffer =>
     let av := alignmentPhaseValue env imageBuffer
     alignmentPhaseOps env imageBuffer ++
       processAfterAlignOps env cfg acceptedQrFormats av.warped av.preprocessed)

/-- Replay the metadata writes of a trace onto a Recognition row. -/
def applyOpsRow (r : RecognitionRow) : List Op → RecognitionRow
  | [] => r
  | Op.writeRec p :: rest => applyOpsRow (applyPatch r p) rest
  | Op.writeImage _ :: rest => applyOpsRow r rest
  | Op.putObject _ _ :: rest => applyOpsRow r rest
  | Op.publish _ :: rest => applyOpsRow r rest

/-- The full effect trace of one worker delivery (debug mode off). -/
def workerOps (env : Env) (cfg : ProcessorConfig) (job : RecognitionJob) : List Op :=
  Op.publish (BusEvent.processing job.imageId job.recognitionId) ::
  processOps env cfg job.imageId none ++
  (match processPure env cfg job.imageId none with
   | Except.ok result =>
       [Op.publish (BusEvent.completed job.imageId job.recognitionId result.resultType
          (result.text.map fun t => t.raw) (result.qr.map fun q => q.data)
          (env.now - env.now))]
   | Except.error e => [Op.publish (BusEvent.failed job.imageId job.recognitionId e)])

/-! ### Spec-side definitions

These are written from the specification's wording (not from the code)
and are compared with the embedded code in the claim theorems. -/

/-- The last element of a list of produced results (spec: "the last
produced result is returned"). -/
def lastProduced {α : Type} : List α → Option α
  | [] => none
  | r :: rest => some ((lastProduced rest).getD r)

/-- What one OCR attempt produces: `none` when the engine throws,
otherwise the result tagged with the attempt's engine and buffer kind. -/
def specAttemptOutcome (env : Env) (a : OcrAttempt) : Option ProcessorResult :=
  match runEngine env a.engine a.buffer with
  | Except.error _ => none
  | Except.ok r => some ⟨r.text, r.confidence, a.engine, true, a.usedPreprocessed⟩

/-- The outcomes of the fixed attempt order (1) Tesseract on
`preprocessed`, (2) PaddleOCR on `preprocessed`, (3) PaddleOCR on
`warped`. -/
def specAttemptOutcomes (env : Env) (warpedBuffer preprocessedBuffer : Buffer) :
    List (Option ProcessorResult) :=
  (attemptsOf warpedBuffer preprocessedBuffer).map (specAttemptOutcome env)

/-- Spec wording of the fallback chain: the first produced result whose
confidence is ≥ `tlow` is returned verbatim; if every produced result is
below `tlow`, the last produced result is returned; if no attempt
produced a result the chain fails with `all ocr engines failed`. -/
def specFallbackChain (tlow : ℚ) (outcomes : List (Option ProcessorResult)) :
    Except String ProcessorResult :=
  let produced := outcomes.filterMap id
  match produced.find? (fun r => decide (tlow ≤ r.confidence)) with
  | some r => Except.ok r
  | none =>
    match lastProduced produced with
    | some r => Except.ok r
    | none => Except.error "all ocr engines failed"

/-- The codes a buffer yields: none when decoding throws. -/
def specCodesOf (env : Env) (b : Buffer) : List BarcodeResult :=
  match env.readBarcodes b with
  | Except.ok results => results
  | Except.error _ => []

/-- Spec wording of per-buffer choice: the first code classified fiscal
if any, otherwise the first code. -/
def specChoose (codes : List BarcodeResult) (isPreprocessed : Bool) : Option QrHit :=
  match codes with
  | [] => none
  | c₀ :: _ =>
    match codes.find? (fun r => classifyQrFormat r.text == QrFormat.fiscal) with
    | some r =>
        some ⟨r.text, classifyQrFormat r.text, convertPosition r.position, isPreprocessed⟩
    | none =>
        some ⟨c₀.text, classifyQrFormat c₀.text, convertPosition c₀.position, isPreprocessed⟩

/-- Spec wording of cross-buffer selection: the first buffer in the
order [warped, preprocessed] that yields at least one decoded code
wins. -/
def specQrSelect (env : Env) (warpedBuffer preprocessedBuffer : Buffer) : Option QrHit :=
  if (specCodesOf env warpedBuffer).isEmpty then
    specChoose (specCodesOf env preprocessedBuffer) true
  else
    specChoose (specCodesOf env warpedBuffer) false

/-! ### Trace predicates -/

/-- The lifecycle status an event corresponds to (`none` for debug
events, which are not part of the lifecycle). -/
def eventStatus : BusEvent → Option Status
  | BusEvent.processing _ _ => some Status.processing
  | BusEvent.completed _ _ _ _ _ _ => some Status.completed
  | BusEvent.failed _ _ _ => some Status.failed
  | BusEvent.debugStep _ _ => none

/-- The status written by an op, when it is a Recognition status write. -/
def statusOfWrite : Op → Option Status
  | Op.writeRec p => p.status
  | _ => none

/-- Does the list contain a Recognition write of the given status? -/
def hasWriteOfStatus (st : Status) (ops : List Op) : Bool :=
  ops.any fun op => decide (statusOfWrite op = some st)

/-- Scan checking that every lifecycle publish is preceded by a matching
persisted status write (`seen` holds the ops before the cursor). -/
def eventsAfterWritesGo : List Op → List Op → Bool
  | [], _ => true
  | op :: rest, seen =>
    (match op with
     | Op.publish ev =>
       match eventStatus ev with
       | some st => hasWriteOfStatus st seen
       | none => true
     | _ => true) && eventsAfterWritesGo rest (seen ++ [op])

/-- Claim C2 as stated: each of `ocr.processing`, `ocr.completed`,
`ocr.failed` is published only after the matching status write. -/
def eventsAfterWrites (tr : List Op) : Bool :=
  eventsAfterWritesGo tr []

/-- Scan checking the restriction of `eventsAfterWrites` to terminal
events only. -/
def terminalEventsAfterWritesGo : List Op → List Op → Bool
  | [], _ => true
  | op :: rest, seen =>
    (match op with
     | Op.publish ev =>
       match eventStatus ev with
       | some Status.completed => hasWriteOfStatus Status.completed seen
       | some Status.failed => hasWriteOfStatus Status.failed seen
       | _ => true
     | _ => true) && terminalEventsAfterWritesGo rest (seen ++ [op])

/-- Checks that `ocr.completed` and `ocr.failed` are published only after the
matching terminal status write. -/
def terminalEventsAfterWrites (tr : List Op) : Bool :=
  terminalEventsAfterWritesGo tr []

/-- Scan checking that every `ocr.processing` publish happens strictly
before the `status=processing` write (none before it, one after it). -/
def processingPublishFirstGo : List Op → List Op → Bool
  | [], _ => true
  | op :: rest, seen =>
    (match op with
     | Op.publish ev =>
       match eventStatus ev with
       | some Status.processing =>
           !hasWriteOfStatus Status.processing seen &&
             hasWriteOfStatus Status.processing rest
       | _ => true
     | _ => true) && processingPublishFirstGo rest (seen ++ [op])

/-- The amended C2 ordering: terminal events follow their writes, while
`ocr.processing` precedes the `processing` write. -/
def processingPublishFirst (tr : List Op) : Bool :=
  processingPublishFirstGo tr []

/-- The sequence of status values persisted by a trace, in order. -/
def statusWrites : List Op → List Status
  | [] => []
  | Op.writeRec p :: rest =>
    (match p.status with
     | some st => [st]
     | none => []) ++ statusWrites rest
  | _ :: rest => statusWrites rest

/-- Terminal statuses of the state machine. -/
def isTerminal : Status → Bool
  | Status.completed => true
  | Status.failed => true
  | _ => false

/-- Claim C3 as stated, on a persisted status sequence: once a terminal
status is written, every later write is terminal (the row never moves
back to `processing` or `queued`). -/
def neverLeavesTerminal : List Status → Bool
  | [] => true
  | st :: rest =>
    (if isTerminal st then rest.all isTerminal else true) && neverLeavesTerminal rest

/-- Ops that set `Image.processedUrl` or store the aligner's warped
output blob. -/
def writesProcessedImage : Op → Bool
  | Op.writeImage _ => true
  | Op.putObject BlobKey.aligned _ => true
  | _ => false

/-- Ops that set `Image.processedUrl`. -/
def isWriteImage : Op → Bool
  | Op.writeImage _ => true
  | _ => false

/-- Ops visible to the lifecycle predicates: Recognition writes and bus
publishes. -/
def isStatusOp : Op → Bool
  | Op.writeRec _ => true
  | Op.publish _ => true
  | _ => false

/-! ### Concrete scenario environments (used by witnesses and
counterexamples) -/

/-- Default thresholds, debug mode off. -/
def cfgOff : ProcessorConfig :=
  { confidenceThresholdHigh := mkRat 7 10, confidenceThresholdLow := mkRat 3 5,
    debugMode := false }

/-- The fiscal QR payload of scenario S1. -/
def fiscalQrData : String :=
  "t=20240101T1200&s=123.45&fn=9280440301000000&i=1&fp=1234567890&n=1"

/-- A concrete code position. -/
def pos0 : Position := ⟨⟨0, 0⟩, ⟨100, 50⟩⟩

/-- A concrete Image row. -/
def imgRow0 : ImageRow := { originalUrl := "minio://images/k1-original.jpg" }

/-- Fresh worker state: a queued Recognition row and an empty trace. -/
def procState0 : ProcState := ⟨{}, []⟩

/-- Everything succeeds and the warped buffer (8) carries a fiscal QR
code. -/
def envQrHappy : Env where
  now := 1000
  findImage := fun _ => some imgRow0
  cacheGet := fun _ => some 7
  getObject := fun _ => Except.error "object not found"
  putObject := fun _ _ => Except.ok "minio://images/w1-aligned.jpg"
  updateImage := fun _ => Except.ok ()
  align := fun _ => Except.ok ⟨8, 9⟩
  sharpPipeline := fun b => Except.ok (b + 100)
  readBarcodes := fun b =>
    if b = 8 then Except.ok [⟨fiscalQrData, pos0⟩] else Except.ok []
  tesseract := fun _ => Except.ok ⟨"ocr text", mkRat 9 10⟩
  paddleocr := fun _ => Except.ok ⟨"paddle text", mkRat 1 2⟩

/-- A job whose envelope accepts only `url` QR codes. -/
def jobUrlOnly : RecognitionJob :=
  { imageId := "img-1", recognitionId := "rec-1",
    acceptedQrFormats := some [QrFormat.url] }

/-- A job with no QR format filter. -/
def jobPlain : RecognitionJob := { imageId := "img-1", recognitionId := "rec-1" }

/-- The aligner is down, no QR codes anywhere, Tesseract succeeds with
high confidence. -/
def envTextHappy : Env where
  now := 1000
  findImage := fun _ => some imgRow0
  cacheGet := fun _ => some 7
  getObject := fun _ => Except.error "object not found"
  putObject := fun _ _ => Except.ok "minio://images/w1-aligned.jpg"
  updateImage := fun _ => Except.ok ()
  align := fun _ => Except.error "aligner service unavailable: 503"
  sharpPipeline := fun b => Except.ok (b + 100)
  readBarcodes := fun _ => Except.ok []
  tesseract := fun _ => Except.ok ⟨"receipt text", mkRat 9 10⟩
  paddleocr := fun _ => Except.ok ⟨"paddle text", mkRat 1 2⟩

/-- The Image row is missing: step 1 of processing throws. -/
def envNoImage : Env where
  now := 1000
  findImage := fun _ => none
  cacheGet := fun _ => none
  getObject := fun _ => Except.error "object not found"
  putObject := fun _ _ => Except.error "minio down"
  updateImage := fun _ => Except.error "db down"
  align := fun _ => Except.error "aligner down"
  sharpPipeline := fun _ => Except.error "sharp failed"
  readBarcodes := fun _ => Except.error "decode failed"
  tesseract := fun _ => Except.error "tesseract down"
  paddleocr := fun _ => Except.error "paddleocr down"

/-- The aligner succeeds but persisting the warped blob throws. -/
def envPutFail : Env where
  now := 1000
  findImage := fun _ => some imgRow0
  cacheGet := fun _ => some 7
  getObject := fun _ => Except.error "object not found"
  putObject := fun _ _ => Except.error "minio down"
  updateImage := fun _ => Except.ok ()
  align := fun _ => Except.ok ⟨8, 9⟩
  sharpPipeline := fun b => Except.ok (b + 100)
  readBarcodes := fun _ => Except.ok []
  tesseract := fun _ => Except.ok ⟨"receipt text", mkRat 9 10⟩
  paddleocr := fun _ => Except.ok ⟨"paddle text", mkRat 1 2⟩

/-- Identifiers generated during the concrete upload: the `nanoid` blob
key differs from the database-generated Image id, as it always does. -/
def ingestEnv0 : IngestEnv :=
  { bucket := "images", imageKey := "k1-original.jpg",
    newImageId := "img-1", newRecognitionId := "rec-1" }

/-- A valid 200 KiB JPEG upload. -/
def fileOk : FileInput := { size := 200 * 1024, mimeType := "image/jpeg", bytes := 7 }

/-- An `application/pdf` upload (scenario S6). -/
def filePdf : FileInput := { size := 1000, mimeType := "application/pdf", bytes := 3 }

/-- An oversized JPEG upload (10 MiB + 1 byte). -/
def fileTooBig : FileInput :=
  { size := 10 * 1024 * 1024 + 1, mimeType := "image/jpeg", bytes := 4 }

/-- Empty gateway state. -/
def ingestState0 : IngestState := {}

/-- The gateway state after the concrete upload succeeds. -/
def ingestAfterUpload : IngestState :=
  match uploadImage ingestEnv0 fileOk none ingestState0 with
  | Except.ok (s, _) => s
  | Except.error _ => ingestState0

/-- The worker environment whose stores are exactly the gateway state
seeded by the concrete upload (aligner down so the worker touches no
further store). -/
def envAfterUpload : Env where
  now := 1000
  findImage := fun id => ingestAfterUpload.images.lookup id
  cacheGet := fun k => ingestAfterUpload.cache.lookup k
  getObject := fun k =>
    match ingestAfterUpload.storage.lookup k with
    | some b => Except.ok b
    | none => Except.error "object not found"
  putObject := fun _ _ => Except.ok "minio://images/w1-aligned.jpg"
  updateImage := fun _ => Except.ok ()
  align := fun _ => Except.error "aligner down"
  sharpPipeline := fun b => Except.ok (b + 100)
  readBarcodes := fun _ => Except.ok []
  tesseract := fun _ => Except.ok ⟨"receipt text", mkRat 9 10⟩
  paddleocr := fun _ => Except.ok ⟨"paddle text", mkRat 1 2⟩

/-! ### Run lemmas

The monad `M` is a function type, so a run is just application to a
state; these lemmas compute the runs of the embedded operations. -/

theorem M.pure_apply {α : Type} (a : α) (s : ProcState) :
    (pure a : M α) s = (Except.ok a, s) := rfl

theorem M.bind_apply {α β : Type} (x : M α) (f : α → M β) (s : ProcState) :
    (x >>= f) s =
      match x s with
      | (Except.ok a, s₁) => f a s₁
      | (Except.error e, s₁) => (Except.error e, s₁) := rfl

theorem M.throw_apply {α : Type} (e : String) (s : ProcState) :
    (M.throw e : M α) s = (Except.error e, s) := rfl

theorem M.tryCatch_apply {α : Type} (x : M α) (h : String → M α) (s : ProcState) :
    M.tryCatch x h s =
      match x s with
      | (Except.error e, s₁) => h e s₁
      | (Except.ok a, s₁) => (Except.ok a, s₁) := by
  unfold M.tryCatch
  rcases x s with ⟨r, s₁⟩
  cases r <;> rfl

theorem updateRecognition_apply (patch : RecPatch) (s : ProcState) :
    updateRecognition patch s =
      (Except.ok (), ⟨applyPatch s.row patch, s.trace ++ [Op.writeRec patch]⟩) := rfl

theorem publishEvent_apply (ev : BusEvent) (s : ProcState) :
    publishEvent ev s = (Except.ok (), ⟨s.row, s.trace ++ [Op.publish ev]⟩) := rfl

theorem getImageBuffer_run (env : Env) (imageId : String) (s : ProcState) :
    getImageBuffer env imageId s = (getImageBufferPure env imageId, s) := by
  unfold getImageBuffer getImageBufferPure
  cases hf : env.findImage imageId with
  | none => rfl
  | some image =>
    cases hc : env.cacheGet ("ocr:image:" ++ imageId) with
    | some b => simp [hf, hc, M.pure_apply]
    | none =>
      cases hg : env.getObject (urlToKey image.originalUrl) <;>
        simp [hf, hc, hg, liftE]

theorem alignmentPhase_run (env : Env) (cfg : ProcessorConfig) (imageBuffer : Buffer)
    (recognitionId : String) (s : ProcState) (hdb : cfg.debugMode = false) :
    alignmentPhase env cfg imageBuffer recognitionId s =
      (Except.ok (alignmentPhaseValue env imageBuffer),
       ⟨s.row, s.trace ++ alignmentPhaseOps env imageBuffer⟩) := by
  unfold alignmentPhase alignmentPhaseValue alignmentPhaseOps
  rw [M.tryCatch_apply]
  cases ha : env.align imageBuffer with
  | error e =>
      simp [ha, hdb, M.bind_apply, M.pure_apply, liftE, putObjectM, updateImageM]
  | ok ar =>
    cases hp : env.putObject BlobKey.aligned ar.warped with
    | error e =>
        simp [ha, hp, hdb, M.bind_apply, M.pure_apply, liftE, putObjectM, updateImageM]
    | ok url =>
      cases hu : env.updateImage url with
      | error e =>
          simp [ha, hp, hu, hdb, M.bind_apply, M.pure_apply, liftE, putObjectM,
            updateImageM]
      | ok u =>
          simp [ha, hp, hu, hdb, M.bind_apply, M.pure_apply, liftE, putObjectM,
            updateImageM]

theorem recognizeChainGo_run (env : Env) (cfg : ProcessorConfig) (recognitionId : String)
    (warpedBuffer preprocessedBuffer : Buffer) (hdb : cfg.debugMode = false)
    (l : List OcrAttempt) :
    ∀ (acc : Option ProcessorResult) (s : ProcState),
      recognizeChainGo env cfg recognitionId warpedBuffer preprocessedBuffer l acc s =
        (chainPure env cfg.confidenceThresholdLow l acc, s) := by
  induction l with
  | nil =>
    intro acc s
    cases acc with
    | none => rfl
    | some lastResult =>
        simp [recognizeChainGo, chainPure, hdb, M.bind_apply, M.pure_apply]
  | cons attempt rest ih =>
    intro acc s
    cases hr : runEngine env attempt.engine attempt.buffer with
    | error e => simp [recognizeChainGo, chainPure, hr, ih]
    | ok result =>
      by_cases hc : cfg.confidenceThresholdLow ≤ result.confidence
      · simp [recognizeChainGo, chainPure, hr, hc, hdb, M.tryCatch_apply,
          M.bind_apply, M.pure_apply]
      · simp [recognizeChainGo, chainPure, hr, hc, ih]

theorem recognizeTextWithStrategy_run (env : Env) (cfg : ProcessorConfig)
    (warpedBuffer preprocessedBuffer : Buffer) (recognitionId : String) (s : ProcState)
    (hdb : cfg.debugMode = false) :
    recognizeTextWithStrategy env cfg warpedBuffer preprocessedBuffer recognitionId s =
      (chainPure env cfg.confidenceThresholdLow
        (attemptsOf warpedBuffer preprocessedBuffer) none, s) := by
  unfold recognizeTextWithStrategy
  exact recognizeChainGo_run env cfg recognitionId warpedBuffer preprocessedBuffer hdb
    (attemptsOf warpedBuffer preprocessedBuffer) none s

theorem processTextPath_run (env : Env) (cfg : ProcessorConfig) (recognitionId : String)
    (warpedBuffer preprocessedBuffer : Buffer) (startTime : ℕ) (s : ProcState)
    (hdb : cfg.debugMode = false) :
    processTextPath env cfg recognitionId warpedBuffer preprocessedBuffer startTime s =
      match chainPure env cfg.confidenceThresholdLow
          (attemptsOf warpedBuffer preprocessedBuffer) none with
      | Except.error e => (Except.error e, s)
      | Except.ok t =>
        (Except.ok { resultType := ResultType.text, text := some t, qr := none,
                     processingTime := env.now - startTime },
         ⟨applyPatch s.row (patchCompletedText t (env.now - startTime) env.now),
          s.trace ++ [Op.writeRec (patchCompletedText t (env.now - startTime) env.now)]⟩) := by
  unfold processTextPath
  rw [M.bind_apply, recognizeTextWithStrategy_run env cfg warpedBuffer preprocessedBuffer
    recognitionId s hdb]
  cases hch : chainPure env cfg.confidenceThresholdLow
      (attemptsOf warpedBuffer preprocessedBuffer) none with
  | error e => rfl
  | ok t =>
      simp [M.bind_apply, M.pure_apply, updateRecognition_apply, patchCompletedText]

theorem applyOpsRow_append (r : RecognitionRow) (l₁ l₂ : List Op) :
    applyOpsRow r (l₁ ++ l₂) = applyOpsRow (applyOpsRow r l₁) l₂ := by
  induction l₁ generalizing r with
  | nil => rfl
  | cons op rest ih => cases op <;> simp [applyOpsRow, ih]

theorem applyOpsRow_alignmentPhaseOps (env : Env) (ib : Buffer) (r : RecognitionRow) :
    applyOpsRow r (alignmentPhaseOps env ib) = r := by
  unfold alignmentPhaseOps
  cases ha : env.align ib with
  | error e => rfl
  | ok ar =>
    cases hp : env.putObject BlobKey.aligned ar.warped with
    | error e => simp [hp, applyOpsRow]
    | ok url => cases hu : env.updateImage url <;> simp [hp, hu, applyOpsRow]

theorem process_run (env : Env) (cfg : ProcessorConfig) (imageId recognitionId : String)
    (accepted : Option (List QrFormat)) (s : ProcState) (hdb : cfg.debugMode = false) :
    process env cfg imageId recognitionId accepted s =
      (processPure env cfg imageId accepted,
       ⟨applyOpsRow s.row (processOps env cfg imageId accepted),
        s.trace ++ processOps env cfg imageId accepted⟩) := by
  unfold process processPure processOps
  cases hgib : getImageBufferPure env imageId with
  | error e =>
      simp [hgib, hdb, M.tryCatch_apply, M.bind_apply, M.pure_apply, M.throw_apply,
        updateRecognition_apply, getImageBuffer_run, applyOpsRow, patchProcessing,
        patchFailed]
  | ok ib =>
    cases hqr : tryExtractQrFromBothVersions env (alignmentPhaseValue env ib).warped
        (alignmentPhaseValue env ib).preprocessed with
    | some qrHit =>
      cases hacc : shouldAcceptQr accepted qrHit.format with
      | true =>
          simp [hgib, hqr, hacc, hdb, M.tryCatch_apply, M.bind_apply, M.pure_apply,
            M.throw_apply, updateRecognition_apply, getImageBuffer_run,
            alignmentPhase_run, processAfterAlignPure, processAfterAlignOps,
            patchProcessing, patchCompletedQr, applyOpsRow_append, applyOpsRow,
            applyOpsRow_alignmentPhaseOps]
      | false =>
        cases hch : chainPure env cfg.confidenceThresholdLow
            (attemptsOf (alignmentPhaseValue env ib).warped
              (alignmentPhaseValue env ib).preprocessed) none with
        | error e =>
            simp [hgib, hqr, hacc, hch, hdb, M.tryCatch_apply, M.bind_apply,
              M.pure_apply, M.throw_apply, updateRecognition_apply, getImageBuffer_run,
              alignmentPhase_run, processTextPath_run, processAfterAlignPure,
              processAfterAlignOps, patchProcessing, patchFailed, applyOpsRow_append,
              applyOpsRow, applyOpsRow_alignmentPhaseOps]
        | ok t =>
            simp [hgib, hqr, hacc, hch, hdb, M.tryCatch_apply, M.bind_apply,
              M.pure_apply, M.throw_apply, updateRecognition_apply, getImageBuffer_run,
              alignmentPhase_run, processTextPath_run, processAfterAlignPure,
              processAfterAlignOps, patchProcessing, patchCompletedText,
              applyOpsRow_append, applyOpsRow, applyOpsRow_alignmentPhaseOps]
    | none =>
      cases hch : chainPure env cfg.confidenceThresholdLow
          (attemptsOf (alignmentPhaseValue env ib).warped
            (alignmentPhaseValue env ib).preprocessed) none with
      | error e =>
          simp [hgib, hqr, hch, hdb, M.tryCatch_apply, M.bind_apply, M.pure_apply,
            M.throw_apply, updateRecognition_apply, getImageBuffer_run,
            alignmentPhase_run, processTextPath_run, processAfterAlignPure,
            processAfterAlignOps, patchProcessing, patchFailed, applyOpsRow_append,
            applyOpsRow, applyOpsRow_alignmentPhaseOps]
      | ok t =>
          simp [hgib, hqr, hch, hdb, M.tryCatch_apply, M.bind_apply, M.pure_apply,
            M.throw_apply, updateRecognition_apply, getImageBuffer_run,
            alignmentPhase_run, processTextPath_run, processAfterAlignPure,
            processAfterAlignOps, patchProcessing, patchCompletedText,
            applyOpsRow_append, applyOpsRow, applyOpsRow_alignmentPhaseOps]

theorem workerStep_run (env : Env) (cfg : ProcessorConfig) (job : RecognitionJob)
    (s : ProcState) (hdb : cfg.debugMode = false) :
    workerStep env cfg job s =
      (processPure env cfg job.imageId none,
       ⟨applyOpsRow s.row (workerOps env cfg job),
        s.trace ++ workerOps env cfg job⟩) := by
  unfold workerStep workerOps
  cases hp : processPure env cfg job.imageId none with
  | error e =>
      simp [hp, hdb, M.tryCatch_apply, M.bind_apply, M.pure_apply, M.throw_apply,
        publishEvent_apply, process_run, applyOpsRow_append, applyOpsRow]
  | ok result =>
      simp [hp, hdb, M.tryCatch_apply, M.bind_apply, M.pure_apply, M.throw_apply,
        publishEvent_apply, process_run, applyOpsRow_append, applyOpsRow]

theorem chainPure_eq_specAux (env : Env) (tlow : ℚ) (l : List OcrAttempt) :
    ∀ acc : Option ProcessorResult,
      chainPure env tlow l acc =
        match ((l.map (specAttemptOutcome env)).filterMap id).find?
            (fun r => decide (tlow ≤ r.confidence)) with
        | some r => Except.ok r
        | none =>
          match lastProduced ((l.map (specAttemptOutcome env)).filterMap id) with
          | some r => Except.ok r
          | none =>
            match acc with
            | some a => Except.ok a
            | none => Except.error "all ocr engines failed" := by
  induction l with
  | nil => intro acc; cases acc <;> rfl
  | cons a rest ih =>
    intro acc
    cases hr : runEngine env a.engine a.buffer with
    | error e => simp [chainPure, specAttemptOutcome, hr, ih]
    | ok r =>
      by_cases hc : tlow ≤ r.confidence
      · simp [chainPure, specAttemptOutcome, hr, hc, List.find?]
      · have key := ih (some ⟨r.text, r.confidence, a.engine, true, a.usedPreprocessed⟩)
        simp only [chainPure, hr, hc, if_false]
        rw [key]
        simp only [List.map_cons, List.filterMap_cons, specAttemptOutcome, hr,
          id_eq, List.find?]
        have hcd : (decide (tlow ≤ r.confidence)) = false := by
          simp [hc]
        rw [hcd]
        cases hfind : ((rest.map (specAttemptOutcome env)).filterMap id).find?
            (fun r => decide (tlow ≤ r.confidence)) with
        | some r' => simp [hfind]
        | none =>
          cases hlast : lastProduced ((rest.map (specAttemptOutcome env)).filterMap id) with
          | some r' =>
              simp only [List.filterMap_map, Function.id_comp] at hlast
              simp [hfind, hlast, lastProduced]
          | none =>
              simp only [List.filterMap_map, Function.id_comp] at hlast
              simp [hfind, hlast, lastProduced]

/-- C5: The OCR fallback chain runs exactly the fixed order (1) Tesseract on the
preprocessed buffer, (2) PaddleOCR on the preprocessed buffer, (3) PaddleOCR on
the warped buffer; an attempt that throws is skipped and the next attempt runs;
the first attempt whose confidence is ≥ `T_low` is returned verbatim and later
attempts do not run; if every attempt that produced a result is below `T_low`,
the last produced result is returned; if no attempt produced a result the chain
fails with the error message `all ocr engines failed`.  (Stated as: the embedded
chain equals the spec-worded fallback function over the fixed attempt list, and
it performs no persistent effect.) -/
theorem c5_ocr_fallback_chain (env : Env) (cfg : ProcessorConfig)
    (warpedBuffer preprocessedBuffer : Buffer) (recognitionId : String) (s : ProcState)
    (hdb : cfg.debugMode = false) :
    recognizeTextWithStrategy env cfg warpedBuffer preprocessedBuffer recognitionId s =
      (specFallbackChain cfg.confidenceThresholdLow
        (specAttemptOutcomes env warpedBuffer preprocessedBuffer), s) := by
  rw [recognizeTextWithStrategy_run env cfg warpedBuffer preprocessedBuffer recognitionId
    s hdb]
  rw [chainPure_eq_specAux env cfg.confidenceThresholdLow
    (attemptsOf warpedBuffer preprocessedBuffer) none]
  unfold specFallbackChain specAttemptOutcomes
  simp only [List.filterMap_map, Function.id_comp]

/-- Closed witness for `c5_ocr_fallback_chain` at a concrete environment, with
the spec chain evaluated: the aligner is down, Tesseract produces confidence
0.9 ≥ 0.6, and the chain returns that result verbatim. -/
theorem c5_ocr_fallback_chain_witness :
    cfgOff.debugMode = false ∧
    recognizeTextWithStrategy envTextHappy cfgOff 7 107 "rec-1" procState0 =
      (specFallbackChain cfgOff.confidenceThresholdLow
        (specAttemptOutcomes envTextHappy 7 107), procState0) ∧
    specFallbackChain cfgOff.confidenceThresholdLow
        (specAttemptOutcomes envTextHappy 7 107) =
      Except.ok ⟨"receipt text", mkRat 9 10, Engine.tesseract, true, true⟩ :=
  ⟨rfl, c5_ocr_fallback_chain envTextHappy cfgOff 7 107 "rec-1" procState0 rfl,
    by norm_num [specFallbackChain, specAttemptOutcomes, specAttemptOutcome, attemptsOf,
      runEngine, envTextHappy, cfgOff, List.find?, lastProduced]⟩

theorem tryExtractQrGo_nonempty (env : Env) (b : Buffer) (isPre : Bool)
    (rest : List (Buffer × Bool)) (c : BarcodeResult) (cs : List BarcodeResult)
    (h : env.readBarcodes b = Except.ok (c :: cs)) :
    tryExtractQrGo env ((b, isPre) :: rest) = specChoose (c :: cs) isPre := by
  cases hfind : (c :: cs).find? (fun r => classifyQrFormat r.text == QrFormat.fiscal) with
  | some r =>
    have hfis : classifyQrFormat r.text = QrFormat.fiscal := by
      have hp := List.find?_some hfind
      exact eq_of_beq hp
    simp [tryExtractQrGo, specChoose, h, hfind, hfis]
  | none => simp [tryExtractQrGo, specChoose, h, hfind]

/-- C6: The QR selection function, applied to the decoded codes of the warped
and preprocessed buffers, returns: from the first buffer in the order
[warped, preprocessed] that yields at least one decoded code (a buffer whose
decoding throws or yields none is passed over), the first code classified
fiscal if any, otherwise the first code; and each code's string is classified
fiscal when it contains `fn=` or `&fn=` or contains all three of `t=`, `s=`
and `fp=`, otherwise url when it starts with `http://` or `https://`,
otherwise unknown. -/
theorem c6_qr_selection_and_classification (env : Env)
    (warpedBuffer preprocessedBuffer : Buffer) :
    tryExtractQrFromBothVersions env warpedBuffer preprocessedBuffer =
      specQrSelect env warpedBuffer preprocessedBuffer ∧
    ∀ s : String,
      (classifyQrFormat s = QrFormat.fiscal ↔
        (containsSubstr s "fn=" = true ∨ containsSubstr s "&fn=" = true ∨
          (containsSubstr s "t=" = true ∧ containsSubstr s "s=" = true ∧
            containsSubstr s "fp=" = true))) ∧
      (classifyQrFormat s = QrFormat.url ↔
        (¬(containsSubstr s "fn=" = true ∨ containsSubstr s "&fn=" = true ∨
            (containsSubstr s "t=" = true ∧ containsSubstr s "s=" = true ∧
              containsSubstr s "fp=" = true)) ∧
          (startsWithStr s "http://" = true ∨ startsWithStr s "https://" = true))) ∧
      (classifyQrFormat s = QrFormat.unknown ↔
        (¬(containsSubstr s "fn=" = true ∨ containsSubstr s "&fn=" = true ∨
            (containsSubstr s "t=" = true ∧ containsSubstr s "s=" = true ∧
              containsSubstr s "fp=" = true)) ∧
          ¬(startsWithStr s "http://" = true ∨ startsWithStr s "https://" = true))) := by
  constructor
  · unfold tryExtractQrFromBothVersions specQrSelect specCodesOf
    cases hw : env.readBarcodes warpedBuffer with
    | error e =>
      cases hp : env.readBarcodes preprocessedBuffer with
      | error e' => simp [tryExtractQrGo, specChoose, hw, hp]
      | ok codes =>
        cases codes with
        | nil => simp [tryExtractQrGo, specChoose, hw, hp]
        | cons c cs =>
          have step : tryExtractQrGo env
              [(warpedBuffer, false), (preprocessedBuffer, true)] =
              tryExtractQrGo env [(preprocessedBuffer, true)] := by
            simp [tryExtractQrGo, hw]
          rw [step, tryExtractQrGo_nonempty env preprocessedBuffer true [] c cs hp]
          dsimp only
          simp
    | ok codes =>
      cases codes with
      | nil =>
        cases hp : env.readBarcodes preprocessedBuffer with
        | error e' => simp [tryExtractQrGo, specChoose, hw, hp]
        | ok codes' =>
          cases codes' with
          | nil => simp [tryExtractQrGo, specChoose, hw, hp]
          | cons c cs =>
            have step : tryExtractQrGo env
                [(warpedBuffer, false), (preprocessedBuffer, true)] =
                tryExtractQrGo env [(preprocessedBuffer, true)] := by
              simp [tryExtractQrGo, hw]
            rw [step, tryExtractQrGo_nonempty env preprocessedBuffer true [] c cs hp]
            dsimp only
            simp
      | cons c cs =>
        rw [tryExtractQrGo_nonempty env warpedBuffer false [(preprocessedBuffer, true)]
          c cs hw]
        dsimp only
        simp
  · intro s
    unfold classifyQrFormat
    refine ⟨?_, ?_, ?_⟩ <;>
      split_ifs with h1 h2 <;>
      simp_all [Bool.or_eq_true, Bool.and_eq_true, and_assoc, or_assoc]

/-! ### Structure of a worker delivery's trace -/

theorem alignmentPhaseOps_no_status (env : Env) (ib : Buffer) :
    (alignmentPhaseOps env ib).all (fun op => !isStatusOp op) = true := by
  unfold alignmentPhaseOps
  cases ha : env.align ib with
  | error e => rfl
  | ok ar =>
    cases hp : env.putObject BlobKey.aligned ar.warped with
    | error e => simp [hp, isStatusOp]
    | ok url => cases hu : env.updateImage url <;> simp [hp, hu, isStatusOp]

theorem applyOpsRow_no_status (l : List Op) (h : l.all (fun op => !isStatusOp op) = true) :
    ∀ r : RecognitionRow, applyOpsRow r l = r := by
  induction l with
  | nil => intro r; rfl
  | cons op rest ih =>
    intro r
    simp only [List.all_cons, Bool.and_eq_true] at h
    cases op with
    | writeRec p => simp [isStatusOp] at h
    | writeImage u => simpa [applyOpsRow] using ih h.2 r
    | putObject k b => simpa [applyOpsRow] using ih h.2 r
    | publish ev => simp [isStatusOp] at h

theorem hasWriteOfStatus_append (st : Status) (l₁ l₂ : List Op) :
    hasWriteOfStatus st (l₁ ++ l₂) =
      (hasWriteOfStatus st l₁ || hasWriteOfStatus st l₂) := by
  simp [hasWriteOfStatus, List.any_append]

theorem hasWriteOfStatus_no_status (st : Status) (l : List Op)
    (h : l.all (fun op => !isStatusOp op) = true) :
    hasWriteOfStatus st l = false := by
  induction l with
  | nil => rfl
  | cons op rest ih =>
    simp only [List.all_cons, Bool.and_eq_true] at h
    cases op with
    | writeRec p => simp [isStatusOp] at h
    | writeImage u => simpa [hasWriteOfStatus, statusOfWrite] using ih h.2
    | putObject k b => simpa [hasWriteOfStatus, statusOfWrite] using ih h.2
    | publish ev => simp [isStatusOp] at h

theorem statusWrites_append (l₁ l₂ : List Op) :
    statusWrites (l₁ ++ l₂) = statusWrites l₁ ++ statusWrites l₂ := by
  induction l₁ with
  | nil => rfl
  | cons op rest ih => cases op <;> simp [statusWrites, ih]

theorem statusWrites_no_status (l : List Op) (h : l.all (fun op => !isStatusOp op) = true) :
    statusWrites l = [] := by
  induction l with
  | nil => rfl
  | cons op rest ih =>
    simp only [List.all_cons, Bool.and_eq_true] at h
    cases op with
    | writeRec p => simp [isStatusOp] at h
    | writeImage u => simpa [statusWrites] using ih h.2
    | putObject k b => simpa [statusWrites] using ih h.2
    | publish ev => simp [isStatusOp] at h

theorem terminalEventsAfterWritesGo_skip (mid : List Op)
    (h : mid.all (fun op => !isStatusOp op) = true) :
    ∀ (rest seen : List Op),
      terminalEventsAfterWritesGo (mid ++ rest) seen =
        terminalEventsAfterWritesGo rest (seen ++ mid) := by
  induction mid with
  | nil => intro rest seen; simp
  | cons op tl ih =>
    intro rest seen
    simp only [List.all_cons, Bool.and_eq_true] at h
    cases op with
    | writeRec p => simp [isStatusOp] at h
    | publish ev => simp [isStatusOp] at h
    | writeImage u =>
      simp only [List.cons_append, terminalEventsAfterWritesGo, List.append_eq]
      rw [ih h.2]
      simp [List.append_assoc]
    | putObject k b =>
      simp only [List.cons_append, terminalEventsAfterWritesGo, List.append_eq]
      rw [ih h.2]
      simp [List.append_assoc]

theorem processingPublishFirstGo_skip (mid : List Op)
    (h : mid.all (fun op => !isStatusOp op) = true) :
    ∀ (rest seen : List Op),
      processingPublishFirstGo (mid ++ rest) seen =
        processingPublishFirstGo rest (seen ++ mid) := by
  induction mid with
  | nil => intro rest seen; simp
  | cons op tl ih =>
    intro rest seen
    simp only [List.all_cons, Bool.and_eq_true] at h
    cases op with
    | writeRec p => simp [isStatusOp] at h
    | publish ev => simp [isStatusOp] at h
    | writeImage u =>
      simp only [List.cons_append, processingPublishFirstGo, List.append_eq]
      rw [ih h.2]
      simp [List.append_assoc]
    | putObject k b =>
      simp only [List.cons_append, processingPublishFirstGo, List.append_eq]
      rw [ih h.2]
      simp [List.append_assoc]

theorem workerOps_shape (env : Env) (cfg : ProcessorConfig) (job : RecognitionJob) :
    ∃ (mid : List Op) (term : RecPatch) (ev : BusEvent),
      workerOps env cfg job =
        Op.publish (BusEvent.processing job.imageId job.recognitionId) ::
        Op.writeRec patchProcessing :: (mid ++ [Op.writeRec term, Op.publish ev]) ∧
      mid.all (fun op => !isStatusOp op) = true ∧
      ((∃ r, processPure env cfg job.imageId none = Except.ok r ∧
          term.status = some Status.completed ∧
          ev = BusEvent.completed job.imageId job.recognitionId r.resultType
            (r.text.map fun t => t.raw) (r.qr.map fun q => q.data) (env.now - env.now)) ∨
       (∃ e, processPure env cfg job.imageId none = Except.error e ∧
          term = patchFailed e env.now ∧
          ev = BusEvent.failed job.imageId job.recognitionId e)) := by
  cases hgib : getImageBufferPure env job.imageId with
  | error e =>
    refine ⟨[], patchFailed e env.now,
      BusEvent.failed job.imageId job.recognitionId e, ?_, ?_, ?_⟩
    · simp [workerOps, processOps, processPure, hgib]
    · rfl
    · exact Or.inr ⟨e, by simp [processPure, hgib], rfl, rfl⟩
  | ok ib =>
    cases hqr : tryExtractQrFromBothVersions env (alignmentPhaseValue env ib).warped
        (alignmentPhaseValue env ib).preprocessed with
    | some hit =>
      refine ⟨alignmentPhaseOps env ib,
        patchCompletedQr hit (env.now - env.now) env.now,
        BusEvent.completed job.imageId job.recognitionId ResultType.qr none
          (some hit.data) (env.now - env.now), ?_, alignmentPhaseOps_no_status env ib, ?_⟩
      · simp [workerOps, processOps, processPure, processAfterAlignOps,
          processAfterAlignPure, hgib, hqr, shouldAcceptQr]
      · refine Or.inl
          ⟨RecognitionResult.mk ResultType.qr none (some hit) (env.now - env.now),
            ?_, ?_, ?_⟩
        · simp [processPure, processAfterAlignPure, hgib, hqr, shouldAcceptQr]
        · rfl
        · rfl
    | none =>
      cases hch : chainPure env cfg.confidenceThresholdLow
          (attemptsOf (alignmentPhaseValue env ib).warped
            (alignmentPhaseValue env ib).preprocessed) none with
      | ok t =>
        refine ⟨alignmentPhaseOps env ib,
          patchCompletedText t (env.now - env.now) env.now,
          BusEvent.completed job.imageId job.recognitionId ResultType.text
            (some t.raw) none (env.now - env.now), ?_,
          alignmentPhaseOps_no_status env ib, ?_⟩
        · simp [workerOps, processOps, processPure, processAfterAlignOps,
            processAfterAlignPure, hgib, hqr, hch]
        · refine Or.inl
            ⟨RecognitionResult.mk ResultType.text (some t) none (env.now - env.now),
              ?_, ?_, ?_⟩
          · simp [processPure, processAfterAlignPure, hgib, hqr, hch]
          · rfl
          · rfl
      | error e =>
        refine ⟨alignmentPhaseOps env ib, patchFailed e env.now,
          BusEvent.failed job.imageId job.recognitionId e, ?_,
          alignmentPhaseOps_no_status env ib, ?_⟩
        · simp [workerOps, processOps, processPure, processAfterAlignOps,
            processAfterAlignPure, hgib, hqr, hch]
        · exact Or.inr ⟨e,
            by simp [processPure, processAfterAlignPure, hgib, hqr, hch], rfl, rfl⟩

theorem workerOps_ordering (env : Env) (cfg : ProcessorConfig) (job : RecognitionJob) :
    terminalEventsAfterWrites (workerOps env cfg job) = true ∧
    processingPublishFirst (workerOps env cfg job) = true := by
  obtain ⟨mid, term, ev, hshape, hmid, hcase⟩ := workerOps_shape env cfg job
  rw [hshape]
  have hterm : term.status = some Status.completed ∨ term = patchFailed
      (match processPure env cfg job.imageId none with
       | Except.error e => e
       | Except.ok _ => "") env.now ∧ eventStatus ev = some Status.failed := by
    rcases hcase with ⟨r, hpp, ht, hev⟩ | ⟨e, hpp, ht, hev⟩
    · exact Or.inl ht
    · exact Or.inr ⟨by rw [hpp, ht], by rw [hev]; rfl⟩
  constructor
  · rcases hcase with ⟨r, hpp, ht, hev⟩ | ⟨e, hpp, ht, hev⟩ <;>
      subst hev <;>
      simp [terminalEventsAfterWrites, terminalEventsAfterWritesGo, eventStatus,
        terminalEventsAfterWritesGo_skip mid hmid, hasWriteOfStatus_append,
        hasWriteOfStatus_no_status, hmid, hasWriteOfStatus, statusOfWrite, ht,
        patchProcessing, patchFailed]
  · rcases hcase with ⟨r, hpp, ht, hev⟩ | ⟨e, hpp, ht, hev⟩ <;>
      subst hev <;>
      simp [processingPublishFirst, processingPublishFirstGo, eventStatus,
        processingPublishFirstGo_skip mid hmid, hasWriteOfStatus_append,
        hasWriteOfStatus_no_status, hmid, hasWriteOfStatus, statusOfWrite, ht,
        patchProcessing, patchFailed]

theorem workerOps_statusWrites (env : Env) (cfg : ProcessorConfig) (job : RecognitionJob) :
    statusWrites (workerOps env cfg job) = [Status.processing, Status.completed] ∨
    statusWrites (workerOps env cfg job) = [Status.processing, Status.failed] := by
  obtain ⟨mid, term, ev, hshape, hmid, hcase⟩ := workerOps_shape env cfg job
  rw [hshape]
  rcases hcase with ⟨r, hpp, ht, hev⟩ | ⟨e, hpp, ht, hev⟩
  · refine Or.inl ?_
    simp [statusWrites, statusWrites_append, statusWrites_no_status mid hmid,
      patchProcessing, ht]
  · refine Or.inr ?_
    simp [statusWrites, statusWrites_append, statusWrites_no_status mid hmid,
      patchProcessing, ht, patchFailed]

/-- C2 counterexample: on a concrete successful job, the claim "each
lifecycle event is published only after the persisted write of the
matching status" is false, because the worker publishes `ocr.processing`
before `process` writes `status=processing`. -/
theorem c2_processing_published_before_write_counterexample :
    eventsAfterWrites
      ((workerStep envTextHappy cfgOff jobPlain procState0).2.trace) = false := by
  decide

/-- C2 (amended): `ocr.completed` and `ocr.failed` are published on the bus
only after the persisted write of the matching terminal status has committed
to the metadata store, but `ocr.processing` is published on dequeue before
the Recognition row is updated to `status=processing` (the matching write
happens only afterwards, inside `process`). -/
theorem c2_event_ordering_amended (env : Env) (cfg : ProcessorConfig)
    (job : RecognitionJob) (r0 : RecognitionRow) (hdb : cfg.debugMode = false) :
    terminalEventsAfterWrites ((workerStep env cfg job ⟨r0, []⟩).2.trace) = true ∧
    processingPublishFirst ((workerStep env cfg job ⟨r0, []⟩).2.trace) = true := by
  rw [workerStep_run env cfg job ⟨r0, []⟩ hdb]
  simpa using workerOps_ordering env cfg job

/-- Closed witness for `c2_event_ordering_amended` at a concrete run. -/
theorem c2_event_ordering_amended_witness :
    cfgOff.debugMode = false ∧
    (terminalEventsAfterWrites
        ((workerStep envTextHappy cfgOff jobPlain ⟨{}, []⟩).2.trace) = true ∧
     processingPublishFirst
        ((workerStep envTextHappy cfgOff jobPlain ⟨{}, []⟩).2.trace) = true) :=
  ⟨rfl, c2_event_ordering_amended envTextHappy cfgOff jobPlain {} rfl⟩

/-- C3 counterexample: the first delivery of the concrete job terminates the
Recognition with `status=completed`; a second delivery of the same job (the
queue is at-least-once) unconditionally writes `status=processing` again, so
the persisted status sequence leaves the terminal state, falsifying "a job
re-delivered after a terminal status leaves the Recognition in that terminal
state and never moves it back to processing". -/
theorem c3_redelivery_leaves_terminal_counterexample :
    (workerStep envTextHappy cfgOff jobPlain procState0).2.row.status =
      Status.completed ∧
    neverLeavesTerminal (statusWrites
      ((workerStep envTextHappy cfgOff jobPlain
        ((workerStep envTextHappy cfgOff jobPlain procState0).2)).2.trace)) = false := by
  constructor
  · decide
  · decide

/-- C3 (amended): within a single delivery, the persisted status sequence is
exactly `processing` followed by one terminal status (`completed` or
`failed`); but `process` writes `status=processing` unconditionally at the
start of every delivery, whatever the row's current status, so a job
re-delivered by the queue after a terminal write moves the Recognition back
through `processing` to a fresh terminal status instead of leaving it
untouched. -/
theorem c3_per_delivery_status_writes (env : Env) (cfg : ProcessorConfig)
    (job : RecognitionJob) (r0 : RecognitionRow) (hdb : cfg.debugMode = false) :
    statusWrites ((workerStep env cfg job ⟨r0, []⟩).2.trace) =
        [Status.processing, Status.completed] ∨
    statusWrites ((workerStep env cfg job ⟨r0, []⟩).2.trace) =
        [Status.processing, Status.failed] := by
  rw [workerStep_run env cfg job ⟨r0, []⟩ hdb]
  simpa using workerOps_statusWrites env cfg job

/-- Closed witness for `c3_per_delivery_status_writes`: a re-delivery after a
terminal state (row already completed) still writes processing then a
terminal status. -/
theorem c3_per_delivery_status_writes_witness :
    cfgOff.debugMode = false ∧
    (statusWrites ((workerStep envTextHappy cfgOff jobPlain
        ⟨{ status := Status.completed }, []⟩).2.trace) =
        [Status.processing, Status.completed] ∨
     statusWrites ((workerStep envTextHappy cfgOff jobPlain
        ⟨{ status := Status.completed }, []⟩).2.trace) =
        [Status.processing, Status.failed]) :=
  ⟨rfl, c3_per_delivery_status_writes envTextHappy cfgOff jobPlain
    { status := Status.completed } rfl⟩

/-- C7: For every job in which an exception escapes steps 1–4 of processing
(e.g. image not found, or all OCR engines failed), the Recognition is updated
with `status=failed`, `error` set to the exception's message, and
`completedAt` set; an `ocr.failed` event is published after that write; and
the exception is re-raised to the queue (the worker run itself ends in the
same error). -/
theorem c7_failure_path (env : Env) (cfg : ProcessorConfig) (job : RecognitionJob)
    (r0 : RecognitionRow) (e : String) (hdb : cfg.debugMode = false)
    (herr : processPure env cfg job.imageId none = Except.error e) :
    (workerStep env cfg job ⟨r0, []⟩).1 = Except.error e ∧
    (workerStep env cfg job ⟨r0, []⟩).2.row.status = Status.failed ∧
    (workerStep env cfg job ⟨r0, []⟩).2.row.error = some e ∧
    (workerStep env cfg job ⟨r0, []⟩).2.row.completedAt = some env.now ∧
    terminalEventsAfterWrites ((workerStep env cfg job ⟨r0, []⟩).2.trace) = true ∧
    Op.publish (BusEvent.failed job.imageId job.recognitionId e) ∈
      (workerStep env cfg job ⟨r0, []⟩).2.trace := by
  have hrun := workerStep_run env cfg job ⟨r0, []⟩ hdb
  obtain ⟨mid, term, ev, hshape, hmid, hcase⟩ := workerOps_shape env cfg job
  have hord := workerOps_ordering env cfg job
  rcases hcase with ⟨r, hpp, ht, hev⟩ | ⟨e', hpp, ht, hev⟩
  · rw [herr] at hpp
    cases hpp
  · have he' : e' = e := by
      rw [hpp] at herr
      exact (Except.error.injEq e' e).mp herr
    subst he'
    subst hev
    subst ht
    have hrow : (workerStep env cfg job ⟨r0, []⟩).2.row =
        applyPatch (applyPatch r0 patchProcessing) (patchFailed e' env.now) := by
      rw [hrun]
      show applyOpsRow r0 (workerOps env cfg job) = _
      rw [hshape]
      simp [applyOpsRow, applyOpsRow_append, applyOpsRow_no_status mid hmid]
    have htr : (workerStep env cfg job ⟨r0, []⟩).2.trace = workerOps env cfg job := by
      rw [hrun]
      simp
    constructor
    · rw [hrun, herr]
    refine ⟨?_, ?_, ?_, ?_, ?_⟩
    · rw [hrow]
      simp [applyPatch, patchProcessing, patchFailed]
    · rw [hrow]
      simp [applyPatch, patchProcessing, patchFailed]
    · rw [hrow]
      simp [applyPatch, patchProcessing, patchFailed]
    · rw [htr]
      exact hord.1
    · rw [htr, hshape]
      simp

/-- Closed witness for `c7_failure_path`: the Image row is missing, so step 1
throws `image not found`; the worker writes the failed row, publishes
`ocr.failed` after it, and rethrows. -/
theorem c7_failure_path_witness :
    (cfgOff.debugMode = false ∧
     processPure envNoImage cfgOff jobPlain.imageId none =
       Except.error "image not found") ∧
    ((workerStep envNoImage cfgOff jobPlain ⟨{}, []⟩).1 =
        Except.error "image not found" ∧
     (workerStep envNoImage cfgOff jobPlain ⟨{}, []⟩).2.row.status = Status.failed ∧
     (workerStep envNoImage cfgOff jobPlain ⟨{}, []⟩).2.row.error =
        some "image not found" ∧
     (workerStep envNoImage cfgOff jobPlain ⟨{}, []⟩).2.row.completedAt =
        some envNoImage.now ∧
     terminalEventsAfterWrites
        ((workerStep envNoImage cfgOff jobPlain ⟨{}, []⟩).2.trace) = true ∧
     Op.publish (BusEvent.failed jobPlain.imageId jobPlain.recognitionId
        "image not found") ∈ (workerStep envNoImage cfgOff jobPlain ⟨{}, []⟩).2.trace) :=
  ⟨⟨rfl, rfl⟩,
    c7_failure_path envNoImage cfgOff jobPlain {} "image not found" rfl rfl⟩

theorem processAfterAlignOps_single (env : Env) (cfg : ProcessorConfig)
    (accepted : Option (List QrFormat)) (w p : Buffer) :
    ∃ patch : RecPatch, processAfterAlignOps env cfg accepted w p = [Op.writeRec patch] := by
  unfold processAfterAlignOps
  cases hqr : tryExtractQrFromBothVersions env w p with
  | some hit =>
    cases hacc : shouldAcceptQr accepted hit.format with
    | true => exact ⟨_, by simp [hacc]; rfl⟩
    | false =>
      cases hch : chainPure env cfg.confidenceThresholdLow (attemptsOf w p) none with
      | error e => exact ⟨_, by simp [hacc, hch]; rfl⟩
      | ok t => exact ⟨_, by simp [hacc, hch]; rfl⟩
  | none =>
    cases hch : chainPure env cfg.confidenceThresholdLow (attemptsOf w p) none with
    | error e => exact ⟨_, by simp [hch]; rfl⟩
    | ok t => exact ⟨_, by simp [hch]; rfl⟩

/-- C8: For every job in which the aligner call fails, the processor continues
with the original bytes as the warped buffer and a locally computed
preprocessed buffer (the sharp grayscale → normalize → threshold(128) → JPEG
pipeline), the QR step and the OCR chain run normally on those buffers, and
the Image record is left unchanged: `processedUrl` is not written and no
warped blob is stored. -/
theorem c8_aligner_failure_local_fallback (env : Env) (cfg : ProcessorConfig)
    (imageId recognitionId : String) (accepted : Option (List QrFormat))
    (r0 : RecognitionRow) (ib : Buffer) (msg : String)
    (hdb : cfg.debugMode = false)
    (hib : getImageBufferPure env imageId = Except.ok ib)
    (halign : env.align ib = Except.error msg) :
    (process env cfg imageId recognitionId accepted ⟨r0, []⟩).1 =
      processAfterAlignPure env cfg accepted ib (applyLocalPreprocessing env ib) ∧
    ((process env cfg imageId recognitionId accepted ⟨r0, []⟩).2.trace.any
      writesProcessedImage) = false := by
  have hav : alignmentPhaseValue env ib = ⟨ib, applyLocalPreprocessing env ib⟩ := by
    unfold alignmentPhaseValue
    rw [halign]
  have hops : alignmentPhaseOps env ib = [] := by
    unfold alignmentPhaseOps
    rw [halign]
  rw [process_run env cfg imageId recognitionId accepted ⟨r0, []⟩ hdb]
  obtain ⟨patch, hsingle⟩ := processAfterAlignOps_single env cfg accepted ib
    (applyLocalPreprocessing env ib)
  constructor
  · show processPure env cfg imageId accepted = _
    unfold processPure
    simp [hib, hav]
  · show ((⟨r0, []⟩ : ProcState).trace ++ processOps env cfg imageId accepted).any
      writesProcessedImage = false
    unfold processOps
    simp [hib, hav, hops, hsingle, writesProcessedImage]

/-- Closed witness for `c8_aligner_failure_local_fallback`: the aligner is
down; the job still completes through the OCR chain on the fallback buffers
and the trace never touches `processedUrl` or the aligned blob. -/
theorem c8_aligner_failure_local_fallback_witness :
    (cfgOff.debugMode = false ∧
     getImageBufferPure envTextHappy "img-1" = Except.ok 7 ∧
     envTextHappy.align 7 = Except.error "aligner service unavailable: 503") ∧
    ((process envTextHappy cfgOff "img-1" "rec-1" none ⟨{}, []⟩).1 =
       processAfterAlignPure envTextHappy cfgOff none 7
         (applyLocalPreprocessing envTextHappy 7) ∧
     ((process envTextHappy cfgOff "img-1" "rec-1" none ⟨{}, []⟩).2.trace.any
       writesProcessedImage) = false) :=
  ⟨⟨rfl, rfl, rfl⟩,
    c8_aligner_failure_local_fallback envTextHappy cfgOff "img-1" "rec-1" none {} 7
      "aligner service unavailable: 503" rfl rfl rfl⟩

/-- C10: When the aligner call itself succeeds but persisting the warped blob
or updating `Image.processedUrl` throws, the processor does not fail the job:
the exception is absorbed by the alignment-fallback branch, which discards the
aligner's output and continues with the original bytes as warped and a locally
preprocessed buffer, so a successfully aligned image can still end with
`processedUrl` unset. -/
theorem c10_persist_failure_absorbed (env : Env) (cfg : ProcessorConfig)
    (imageId recognitionId : String) (accepted : Option (List QrFormat))
    (r0 : RecognitionRow) (ib : Buffer) (ar : AlignmentResult)
    (hdb : cfg.debugMode = false)
    (hib : getImageBufferPure env imageId = Except.ok ib)
    (halign : env.align ib = Except.ok ar)
    (hfail : (∃ pe, env.putObject BlobKey.aligned ar.warped = Except.error pe) ∨
             (∃ url ue, env.putObject BlobKey.aligned ar.warped = Except.ok url ∧
                env.updateImage url = Except.error ue)) :
    (process env cfg imageId recognitionId accepted ⟨r0, []⟩).1 =
      processAfterAlignPure env cfg accepted ib (applyLocalPreprocessing env ib) ∧
    ((process env cfg imageId recognitionId accepted ⟨r0, []⟩).2.trace.any
      isWriteImage) = false := by
  have hav : alignmentPhaseValue env ib = ⟨ib, applyLocalPreprocessing env ib⟩ := by
    unfold alignmentPhaseValue
    rcases hfail with ⟨pe, hp⟩ | ⟨url, ue, hp, hu⟩
    · rw [halign]
      simp [hp]
    · rw [halign]
      simp [hp, hu]
  have hops : (alignmentPhaseOps env ib).any isWriteImage = false := by
    unfold alignmentPhaseOps
    rcases hfail with ⟨pe, hp⟩ | ⟨url, ue, hp, hu⟩
    · rw [halign]
      simp [hp]
    · rw [halign]
      simp [hp, hu, isWriteImage]
  rw [process_run env cfg imageId recognitionId accepted ⟨r0, []⟩ hdb]
  obtain ⟨patch, hsingle⟩ := processAfterAlignOps_single env cfg accepted ib
    (applyLocalPreprocessing env ib)
  constructor
  · show processPure env cfg imageId accepted = _
    unfold processPure
    simp [hib, hav]
  · show ((⟨r0, []⟩ : ProcState).trace ++ processOps env cfg imageId accepted).any
      isWriteImage = false
    unfold processOps
    simp [hib, hav, hsingle, isWriteImage, List.any_append, hops]

/-- Closed witness for `c10_persist_failure_absorbed`: the aligner succeeds
but storing the warped blob throws; the job completes through the fallback
buffers and `processedUrl` is never written. -/
theorem c10_persist_failure_absorbed_witness :
    (cfgOff.debugMode = false ∧
     getImageBufferPure envPutFail "img-1" = Except.ok 7 ∧
     envPutFail.align 7 = Except.ok ⟨8, 9⟩ ∧
     envPutFail.putObject BlobKey.aligned 8 = Except.error "minio down") ∧
    ((process envPutFail cfgOff "img-1" "rec-1" none ⟨{}, []⟩).1 =
       processAfterAlignPure envPutFail cfgOff none 7
         (applyLocalPreprocessing envPutFail 7) ∧
     ((process envPutFail cfgOff "img-1" "rec-1" none ⟨{}, []⟩).2.trace.any
       isWriteImage) = false) :=
  ⟨⟨rfl, rfl, rfl, rfl⟩,
    c10_persist_failure_absorbed envPutFail cfgOff "img-1" "rec-1" none {} 7 ⟨8, 9⟩
      rfl rfl rfl (Or.inl ⟨"minio down", rfl⟩)⟩

/-- C1 (evaluation at the failing input): the queue envelope carries
`acceptedQrFormats = ["url"]` and the decoded QR classifies as `fiscal`, yet
the delivered job completes with `resultType=qr` because the worker's call to
`process` does not forward the envelope's `acceptedQrFormats`; the processor
itself, handed the same filter, discards the QR and completes with
`resultType=text`. -/
theorem c1_worker_drops_accepted_formats :
    jobUrlOnly.acceptedQrFormats = some [QrFormat.url] ∧
    classifyQrFormat fiscalQrData = QrFormat.fiscal ∧
    (workerStep envQrHappy cfgOff jobUrlOnly procState0).2.row.status =
      Status.completed ∧
    (workerStep envQrHappy cfgOff jobUrlOnly procState0).2.row.resultType =
      some ResultType.qr ∧
    (workerStep envQrHappy cfgOff jobUrlOnly procState0).2.row.qrFormat =
      some QrFormat.fiscal ∧
    (process envQrHappy cfgOff jobUrlOnly.imageId jobUrlOnly.recognitionId
        jobUrlOnly.acceptedQrFormats procState0).2.row.resultType =
      some ResultType.text := by
  refine ⟨rfl, ?_, ?_, ?_, ?_, ?_⟩ <;> decide

/-- C4 (evaluation at the failing input): the ingest seeds the cache under
`ocr:image:<blob key>` while the processor consults `ocr:image:<image id>`;
the two keys differ, so the processor's cache lookup misses and the uploaded
bytes come back only through the blob-store fallback. -/
theorem c4_cache_key_mismatch :
    ingestAfterUpload.cache.lookup ("ocr:image:" ++ ingestEnv0.imageKey) = some 7 ∧
    ("ocr:image:" ++ ingestEnv0.imageKey ≠ "ocr:image:" ++ ingestEnv0.newImageId) ∧
    envAfterUpload.cacheGet ("ocr:image:" ++ ingestEnv0.newImageId) = none ∧
    getImageBuffer envAfterUpload "img-1" procState0 = (Except.ok 7, procState0) ∧
    envAfterUpload.getObject (urlToKey "minio://images/k1-original.jpg") =
      Except.ok 7 :=
  ⟨by decide, by decide, by decide, by rfl, by rfl⟩

/-- C9 (evaluation at the failing inputs): an `application/pdf` upload and an
oversized upload are rejected before any blob write, cache seed, metadata
insert, enqueue or event (the gateway state is unchanged) — but the route
answers HTTP 500 from its catch-all, not the 400 the claim states. -/
theorem c9_validation_rejected_with_500 :
    (recognizeRoute ingestEnv0 (some filePdf) none none ingestState0).2.status = 500 ∧
    (recognizeRoute ingestEnv0 (some filePdf) none none ingestState0).2.errorMessage =
      some "unsupported image format" ∧
    (recognizeRoute ingestEnv0 (some filePdf) none none ingestState0).1 =
      ingestState0 ∧
    (recognizeRoute ingestEnv0 (some fileTooBig) none none ingestState0).2.status =
      500 ∧
    (recognizeRoute ingestEnv0
        (some fileTooBig) none none ingestState0).2.errorMessage =
      some "file too large" ∧
    (recognizeRoute ingestEnv0 (some fileTooBig) none none ingestState0).1 =
      ingestState0 ∧
    ¬ (recognizeRoute ingestEnv0 (some filePdf) none none ingestState0).2.status =
      400 := by
  refine ⟨?_, ?_, ?_, ?_, ?_, ?_, ?_⟩ <;> decide
